import Mathlib

/-!
Shallow embedding of the GameLinkBo catalog application (src/app.py and
src/init.py): a Flask + SQLite game-reselling catalog with an admin panel.

Tables are lists of row records; SQL statements become list operations with
the same semantics (UPDATE maps over all matching rows, INSERT OR IGNORE
appends only when no conflicting row exists, fetchone is the first match).
Request-supplied randomness (uuid4 hex, bcrypt salts) and the clock are
passed in explicitly as parameters.  REAL-typed columns (base_price,
discount_pct) are carried opaquely as the submitted form text: no claim
depends on float arithmetic.  Each HTTP handler becomes a function from
system state to (new state, optional error), mirroring the code's
flash-and-redirect (state returned unchanged, error reported) and
abort(404) (state unchanged, notFound) behaviour.
-/

namespace GameLinkBo

/-- Error taxonomy of the handlers: validation failure (flash + redirect),
abort(404), and save_image's rejected extension (ValueError). -/
inductive Err where
  | validationError
  | notFound
  | unsupportedFormat
deriving DecidableEq, Repr

/-! ### Rows and database state -/

/-- A row of the `games` table (init.py, SCHEMA_BASE).  REAL columns are
carried as the raw form text, unused by any claim. -/
structure GameRow where
  id : String
  slug : String
  title : String
  description : String
  platform_id : String
  base_price : String
  discount_pct : String
  whatsapp_override : Option String
  is_published : Nat
  created_by : String
  created_at : String
  updated_at : String
deriving DecidableEq, Repr

/-- A row of the `game_images` table. -/
structure GameImageRow where
  id : String
  game_id : String
  file_name : String
  file_path : String
  thumb_path : String
  is_cover : Nat
  order_idx : Nat
deriving DecidableEq, Repr

/-- A row of the `game_genres` join table. -/
structure GameGenreRow where
  game_id : String
  genre_id : String
deriving DecidableEq, Repr

/-- A row of the `users` table. -/
structure UserRow where
  id : String
  username : String
  password_hash : String
  role : String
  is_active : Nat
  created_at : String
deriving DecidableEq, Repr

/-- A row of the `settings` key/value table. -/
structure SettingRow where
  key : String
  value : String
deriving DecidableEq, Repr

/-- A row of the `platforms` or `genres` taxonomy tables. -/
structure NameRow where
  id : String
  name : String
deriving DecidableEq, Repr

/-- The SQLite database: one list per table. -/
structure DB where
  settings : List SettingRow
  users : List UserRow
  platforms : List NameRow
  genres : List NameRow
  games : List GameRow
  game_genres : List GameGenreRow
  game_images : List GameImageRow
deriving DecidableEq, Repr

/-- Database plus the physical file store under /data/uploads: the list of
relative paths ("originals/..." and "thumbs/...") currently on disk. -/
structure Sys where
  db : DB
  files : List String
deriving DecidableEq, Repr

/-! ### Path helpers: Python os.path.splitext / basename, allowed_file -/

/-- Python str.strip(): drop leading and trailing whitespace. -/
def pyStrip (s : String) : String :=
  String.mk (((s.data.dropWhile Char.isWhitespace).reverse.dropWhile
    Char.isWhitespace).reverse)

/-- Python str.lower() on the ASCII range the extension allow-list and the
SQLite comparisons exercise. -/
def lowerChar (c : Char) : Char :=
  if 'A' ≤ c ∧ c ≤ 'Z' then Char.ofNat (c.toNat + 32) else c

/-- str.lower() over a whole string. -/
def pyLower (s : String) : String :=
  String.mk (s.data.map lowerChar)

/-- The final path component (what follows the last '/'), as in
`os.path.basename`. -/
def afterLastSep (l : List Char) : List Char :=
  (l.splitOn '/').getLastD []

/-- The suffix of `l` starting at its last '.', or `[]` when `l` has no
dot.  Helper for the extension split. -/
def lastExt : List Char → List Char
  | [] => []
  | c :: t =>
    let r := lastExt t
    if r.isEmpty then (if c = '.' then c :: t else []) else r

/-- `os.path.splitext(s)[1]`: the extension (with its dot) of the final
path component, where leading dots of the component never start an
extension (`.bashrc` has none). -/
def pySplitextExt (s : String) : String :=
  let base := afterLastSep s.data
  String.mk (lastExt (base.dropWhile fun c => c = '.'))

/-- `os.path.basename`. -/
def pyBasename (s : String) : String :=
  String.mk (afterLastSep s.data)

/-- ALLOWED_EXT from app.py. -/
def ALLOWED_EXT : List String := [".jpg", ".jpeg", ".png", ".webp"]

/-- `allowed_file` from app.py: extension of the lowercased filename is in
the allow-list. -/
def allowed_file (filename : String) : Bool :=
  ALLOWED_EXT.contains (pySplitextExt (pyLower filename))

/-! ### save_image (app.py): path logic

`save_image` writes the original under `originals/` and the thumbnail
under `thumbs/`, both named `{slug}-{uid}{ext}` where `uid` is a fresh
uuid4 hex (here a parameter) and `ext` the lowercased original extension.
The thumbnail bytes are a JPEG quality-90 re-encode, but the file NAME
keeps the original extension. -/
def save_image (filename slug uid : String) : Except Err (String × String) :=
  let ext := pyLower (pySplitextExt filename)
  if ALLOWED_EXT.contains ext then
    let base_name := slug ++ "-" ++ uid ++ ext
    .ok ("originals/" ++ base_name, "thumbs/" ++ base_name)
  else
    .error .unsupportedFormat

/-! ### Thumbnail geometry (save_image's Pillow pipeline) -/

/-- A Pillow image, tracked by its pixel dimensions (the claims are about
geometry; pixel contents are irrelevant to them). -/
structure PILImage where
  width : Nat
  height : Nat
deriving DecidableEq, Repr

/-- `im.convert("RGB")`: dimensions unchanged. -/
def PILImage.convertRGB (im : PILImage) : PILImage := im

/-- `im.crop((left, top, right, bottom))`: the result is (right-left) by
(bottom-top). -/
def PILImage.crop (im : PILImage) (left top right bottom : Nat) : PILImage :=
  let _ := im
  ⟨right - left, bottom - top⟩

/-- `im.resize((w, h), LANCZOS)`: the result is w by h. -/
def PILImage.resize (im : PILImage) (w h : Nat) : PILImage :=
  let _ := im
  ⟨w, h⟩

/-- THUMB_SIZE from app.py. -/
def THUMB_SIZE : Nat × Nat := (512, 512)

/-- The crop box computed by save_image: a square of side min(w,h)
centered with integer-division offsets. -/
def cropBoxOf (w h : Nat) : Nat × Nat × Nat × Nat :=
  let side := min w h
  let left := (w - side) / 2
  let top := (h - side) / 2
  (left, top, left + side, top + side)

/-- The thumbnail derivation of save_image: convert to RGB, center-crop to
a square of side min(width, height), resize to THUMB_SIZE. -/
def make_thumb (im : PILImage) : PILImage :=
  let im := im.convertRGB
  let w := im.width
  let h := im.height
  let box := cropBoxOf w h
  let im := im.crop box.1 box.2.1 box.2.2.1 box.2.2.2
  im.resize THUMB_SIZE.1 THUMB_SIZE.2

/-! ### Text helpers: SQLite LIKE and FTS5 token matching

SQLite's LIKE is case-insensitive on the ASCII letters only; FTS5's
unicode61 tokenizer splits on non-alphanumeric characters and case-folds.
Both are modelled for the ASCII queries the claims use. -/

/-- SQLite's ASCII-only case fold (the fold LIKE and the unicode61
tokenizer apply on the ASCII range): the same map as the Python lower. -/
def foldChar (c : Char) : Char := lowerChar c

/-- `listContains hay pat`: does `pat` occur as a contiguous run inside
`hay`?  This is what a LIKE pattern %pat% tests when pat is free of the
LIKE metacharacters % and _. -/
def listContains (hay pat : List Char) : Bool :=
  match hay with
  | [] => pat.isEmpty
  | _ :: t => pat.isPrefixOf hay || listContains t pat

/-- `pat` occurs contiguously inside `hay`. -/
def OccursIn (pat hay : List Char) : Prop :=
  ∃ s t, hay = s ++ pat ++ t

/-- A token character for the FTS5 unicode61 tokenizer (restricted to the
ASCII alphanumerics exercised by the claims). -/
def isTokenChar (c : Char) : Bool := c.isAlphanum

/-- Split a character list into maximal alphanumeric runs; `acc` holds the
(reversed) current run. -/
def tokenizeAux : List Char → List Char → List (List Char)
  | [], acc => if acc.isEmpty then [] else [acc.reverse]
  | c :: rest, acc =>
    if isTokenChar c then tokenizeAux rest (c :: acc)
    else if acc.isEmpty then tokenizeAux rest []
    else acc.reverse :: tokenizeAux rest []

/-- The token list of a character list. -/
def tokenize (l : List Char) : List (List Char) := tokenizeAux l []

/-- The case-folded FTS5 tokens of a stored column value, i.e. the content
the games_fts index holds for it (the games_ai/ad/au triggers keep the
index exactly in sync with the games table). -/
def ftsTokens (s : String) : List (List Char) :=
  tokenize (s.data.map foldChar)

/-- `games_fts MATCH q` on a row, for a plain single-term query: the
folded query is a token of the indexed title or description. -/
def ftsMatch (q title description : String) : Bool :=
  let qf := q.data.map foldChar
  (ftsTokens title).any (fun t => t = qf) ||
    (ftsTokens description).any (fun t => t = qf)

/-- A column tested against the LIKE pattern %q% for a metacharacter-free
q: case-insensitive (ASCII) substring containment. -/
def likeContains (q s : String) : Bool :=
  listContains (s.data.map foldChar) (q.data.map foldChar)

/-- Model of the external python-slugify dependency: lowercase the title
and join its alphanumeric runs with hyphens.  No claim depends on its
internals; it only feeds file and slug names. -/
def slugify (s : String) : String :=
  String.intercalate "-" ((tokenize (s.data.map foldChar)).map String.mk)

/-! ### Settings-table primitives (SQL semantics) -/

/-- Is a row with this key present? -/
def settingKeyPresent (s : List SettingRow) (k : String) : Bool :=
  s.any (fun r => r.key == k)

/-- `INSERT OR IGNORE INTO settings(key,value)`. -/
def insertOrIgnoreSetting (s : List SettingRow) (k v : String) : List SettingRow :=
  if settingKeyPresent s k then s else s ++ [⟨k, v⟩]

/-- `UPDATE settings SET value=? WHERE key=?`. -/
def updateSettingValue (s : List SettingRow) (k v : String) : List SettingRow :=
  s.map (fun r => if r.key = k then ⟨r.key, v⟩ else r)

/-- `INSERT ... ON CONFLICT(key) DO UPDATE SET value=excluded.value`
(init.py, upsert_setting). -/
def upsertSetting (s : List SettingRow) (k v : String) : List SettingRow :=
  if settingKeyPresent s k then updateSettingValue s k v else s ++ [⟨k, v⟩]

/-- `SELECT value FROM settings WHERE key=?` with fetchone. -/
def lookupSetting (s : List SettingRow) (k : String) : Option String :=
  (s.find? (fun r => r.key == k)).map (fun r => r.value)

/-! ### Admin handlers (app.py) -/

/-- POST /admin/login: fetch the user filtered on `username=? AND
is_active=1`, then verify the password.  bcrypt.checkpw is the opaque
credential-verification collaborator, passed in as `checkpw password
storedHash`. -/
def admin_login (username password : String)
    (checkpw : String → String → Bool) (db : DB) : Option UserRow :=
  match db.users.find? (fun u => u.username == username && u.is_active == 1) with
  | none => none
  | some user => if checkpw password user.password_hash then some user else none

/-- POST /admin/games/(id)/publish: flip is_published (1 becomes 0,
anything else becomes 1) and stamp updated_at; abort(404) when the id is
unknown. -/
def admin_games_publish (game_id now : String) (sys : Sys) : Sys × Option Err :=
  match sys.db.games.find? (fun g => g.id == game_id) with
  | none => (sys, some .notFound)
  | some game =>
    let new_state := if game.is_published = 1 then 0 else 1
    let games := sys.db.games.map fun g =>
      if g.id = game_id then { g with is_published := new_state, updated_at := now } else g
    ({ sys with db := { sys.db with games := games } }, none)

/-- POST /admin/images/(id)/cover: abort(404) when the image id is
unknown; otherwise clear is_cover on every image of that image's game,
then set it on the named image. -/
def admin_image_set_cover (img_id : String) (sys : Sys) : Sys × Option Err :=
  match sys.db.game_images.find? (fun r => r.id == img_id) with
  | none => (sys, some .notFound)
  | some row =>
    let gid := row.game_id
    let imgs := sys.db.game_images.map fun r =>
      if r.game_id = gid then { r with is_cover := 0 } else r
    let imgs := imgs.map fun r =>
      if r.id = img_id then { r with is_cover := 1 } else r
    ({ sys with db := { sys.db with game_images := imgs } }, none)

/-! ### Game create / edit handlers (app.py) -/

/-- One entry of request.files.getlist, tracked by its client-supplied
filename (the bytes only matter to Pillow, modelled separately). -/
structure UploadFile where
  filename : String
deriving DecidableEq, Repr

/-- The game form fields of admin_games_new / admin_games_edit.  Absent
optional fields arrive as empty strings, exactly as an empty HTML input
submits them. -/
structure GameForm where
  title : String
  platform_id : String
  base_price : String
  discount_pct : String
  description : String
  genres : List String
  publish : Bool
  images : List UploadFile
deriving DecidableEq, Repr

/-- The per-file loop shared by admin_games_new and admin_games_edit:
files failing allowed_file are skipped; each accepted file is saved via
save_image (consuming one fresh image id and one fresh uuid hex from the
supplies) and inserted with ascending order_idx, the first inserted image
of the batch being marked cover.  Returns the inserted rows and the file
store extended with the written paths. -/
def ingestBatch (slug gameId : String) :
    List UploadFile → List String → List String → Nat → Bool →
    List GameImageRow → List String → List GameImageRow × List String
  | [], _, _, _, _, rows, store => (rows, store)
  | f :: rest, imgIds, uids, orderIdx, coverSet, rows, store =>
    if allowed_file f.filename then
      match save_image f.filename slug (uids.headD "") with
      | .ok (fp, tp) =>
        let isCover : Nat := if coverSet then 0 else 1
        let row : GameImageRow :=
          ⟨imgIds.headD "", gameId, pyBasename fp, fp, tp, isCover, orderIdx⟩
        ingestBatch slug gameId rest imgIds.tail uids.tail (orderIdx + 1)
          (coverSet || isCover == 1) (rows ++ [row]) (store ++ [fp, tp])
      | .error _ =>
        ingestBatch slug gameId rest imgIds.tail uids.tail orderIdx coverSet rows store
    else
      ingestBatch slug gameId rest imgIds uids orderIdx coverSet rows store

/-- POST /admin/games/new: validate (title stripped nonempty, platform
chosen), insert the game, the genre links (INSERT OR IGNORE), and the
image batch.  `gameId`, `imgIds` and `uids` are the fresh identifiers the
handler would draw from uuid4. -/
def admin_games_new (form : GameForm) (actor now gameId : String)
    (imgIds uids : List String) (sys : Sys) : Sys × Option Err :=
  let title := pyStrip form.title
  if title = "" ∨ form.platform_id = "" then
    (sys, some .validationError)
  else
    let slug := slugify title
    let game : GameRow :=
      { id := gameId, slug := slug, title := title,
        description := pyStrip form.description, platform_id := form.platform_id,
        base_price := form.base_price, discount_pct := form.discount_pct,
        whatsapp_override := none,
        is_published := if form.publish then 1 else 0,
        created_by := actor, created_at := now, updated_at := now }
    let gg := form.genres.foldl
      (fun acc gid =>
        if acc.any (fun r => r.game_id == gameId && r.genre_id == gid) then acc
        else acc ++ [⟨gameId, gid⟩])
      sys.db.game_genres
    let ing := ingestBatch slug gameId form.images imgIds uids 0 false [] sys.files
    ({ db := { sys.db with
                 games := sys.db.games ++ [game],
                 game_genres := gg,
                 game_images := sys.db.game_images ++ ing.1 },
       files := ing.2 }, none)

/-- The UPDATE games SET ... WHERE id=? statement of admin_games_edit,
as its effect on one row: the slug is re-derived from the stripped title,
every mutable scalar field and updated_at are written. -/
def updateGameRow (form : GameForm) (now game_id : String) (g : GameRow) :
    GameRow :=
  if g.id = game_id then
    { g with slug := slugify (pyStrip form.title),
             title := pyStrip form.title,
             description := pyStrip form.description,
             platform_id := form.platform_id,
             base_price := form.base_price,
             discount_pct := form.discount_pct,
             is_published := if form.publish then 1 else 0,
             updated_at := now }
  else g

/-- The genre reconciliation of admin_games_edit: insert the submitted
genre ids not currently linked (INSERT OR IGNORE), delete the linked ids
no longer submitted. -/
def syncGenres (game_id : String) (genres : List String)
    (gg : List GameGenreRow) : List GameGenreRow :=
  let current := (gg.filter (fun r => r.game_id == game_id)).map
    (fun r => r.genre_id)
  let toAdd := (genres.filter (fun g => !current.contains g)).eraseDups
  let toRemove := current.filter (fun g => !genres.contains g)
  (gg ++ toAdd.map (fun g => (⟨game_id, g⟩ : GameGenreRow))).filter
    (fun r => !(r.game_id == game_id && toRemove.contains r.genre_id))

/-- POST /admin/games/(id)/edit: abort(404) for an unknown id; validate;
update the scalar fields and updated_at; reconcile the genre set by
set-difference; and only when the batch holds at least one file passing
allowed_file, delete every existing image (rows and physical files) and
ingest the new batch. -/
def admin_games_edit (game_id : String) (form : GameForm) (now : String)
    (imgIds uids : List String) (sys : Sys) : Sys × Option Err :=
  match sys.db.games.find? (fun g => g.id == game_id) with
  | none => (sys, some .notFound)
  | some _ =>
    if pyStrip form.title = "" ∨ form.platform_id = "" then
      (sys, some .validationError)
    else
      let slug := slugify (pyStrip form.title)
      let games := sys.db.games.map (updateGameRow form now game_id)
      let gg := syncGenres game_id form.genres sys.db.game_genres
      let have_new := form.images.any (fun f => allowed_file f.filename)
      if have_new then
        let old := sys.db.game_images.filter (fun r => r.game_id == game_id)
        let store1 := old.foldl
          (fun st r => (st.erase r.file_path).erase r.thumb_path) sys.files
        let keptImgs := sys.db.game_images.filter (fun r => !(r.game_id == game_id))
        let ing := ingestBatch slug game_id form.images imgIds uids 0 false [] store1
        ({ db := { sys.db with
                     games := games, game_genres := gg,
                     game_images := keptImgs ++ ing.1 },
           files := ing.2 }, none)
      else
        ({ sys with db := { sys.db with games := games, game_genres := gg } }, none)

/-! ### Catalog query service (app.py, /games) -/

/-- ORDER BY created_at DESC (one admissible SQL ordering; ties broken by
list position, which SQL leaves unspecified). -/
def createdDesc (a b : GameRow) : Prop := b.created_at ≤ a.created_at

instance : DecidableRel createdDesc := fun a b =>
  inferInstanceAs (Decidable (b.created_at ≤ a.created_at))

/-- The row filter of GET /games: published only, optional platform
restriction, and for a nonempty stripped query either the games_fts MATCH
(fts mode) or LIKE on title or description (every other mode). -/
def catalogPred (engine qs : String) (platform : Option String)
    (g : GameRow) : Bool :=
  decide (g.is_published = 1)
  && (match platform with
      | none => true
      | some p => decide (g.platform_id = p))
  && (if qs = "" then true
      else if engine = "fts" then ftsMatch qs g.title g.description
      else likeContains qs g.title || likeContains qs g.description)

/-- GET /games: read search_engine from settings (the handler dereferences
the fetched row, so a missing row is a crash, modelled as none); keep the
published games, optionally restricted to one platform; with a nonempty
stripped query, filter through games_fts MATCH in fts mode and through
LIKE on title or description otherwise; order by creation time descending
and keep at most 60 rows. -/
def catalog (q : String) (platform : Option String) (sys : Sys) :
    Option (List GameRow) :=
  match lookupSetting sys.db.settings "search_engine" with
  | none => none
  | some engine =>
    some (((sys.db.games.filter
      (catalogPred engine (pyStrip q) platform)).insertionSort
        createdDesc).take 60)

/-! ### Schema provisioner (init.py) -/

/-- The provisioner environment: the WHATSAPP_NUMBER default, the
DISABLE_FTS switch, whether the sqlite build can execute SCHEMA_FTS, and
the ADMINS list of (username, password). -/
structure Env where
  defaultWhatsapp : String
  disableFts : Bool
  ftsAvailable : Bool
  admins : List (String × String)
deriving DecidableEq, Repr

/-- The nondeterminism of one provisioner run: fresh user ids, bcrypt
hashes (fresh salt per call), and the clock. -/
structure RunOracle where
  uid : String → String
  hash : String → String → String
  now : String

/-- A taxonomy INSERT conflicts when a row already carries the id (the
primary key) or the name (declared UNIQUE). -/
def nameConflict (l : List NameRow) (id name : String) : Bool :=
  l.any (fun r => r.id == id || r.name == name)

/-- `INSERT OR IGNORE INTO platforms/genres(id,name)`: ignored when a row
conflicts on the id primary key or on the unique name. -/
def insertOrIgnoreName (l : List NameRow) (id name : String) : List NameRow :=
  if nameConflict l id name then l else l ++ [⟨id, name⟩]

/-- The three default settings seeded by SCHEMA_BASE, in script order. -/
def seedSettingsList (env : Env) : List (String × String) :=
  [("site_name", "GameLinkBo"),
   ("whatsapp_number", env.defaultWhatsapp),
   ("search_engine", "like")]

/-- The platforms seeded by SCHEMA_BASE. -/
def seedPlatformsList : List (String × String) :=
  [("plat_steam", "Steam"), ("plat_ps", "PlayStation"), ("plat_xbox", "Xbox"),
   ("plat_switch", "Switch"), ("plat_pc", "PC")]

/-- The genres seeded by SCHEMA_BASE. -/
def seedGenresList : List (String × String) :=
  [("gen_acc", "Acción"), ("gen_adv", "Aventura"), ("gen_rpg", "RPG"),
   ("gen_sho", "Shooter"), ("gen_ind", "Indie"), ("gen_spo", "Deportes"),
   ("gen_str", "Estrategia")]

/-- Fold INSERT OR IGNORE over a seed list of settings. -/
def seedSettings (pairs : List (String × String)) (s : List SettingRow) :
    List SettingRow :=
  pairs.foldl (fun acc kv => insertOrIgnoreSetting acc kv.1 kv.2) s

/-- Fold INSERT OR IGNORE over a taxonomy seed list. -/
def seedNames (pairs : List (String × String)) (l : List NameRow) : List NameRow :=
  pairs.foldl (fun acc kv => insertOrIgnoreName acc kv.1 kv.2) l

/-- The settings effect of the FTS attempt in exec_schema: skipped under
DISABLE_FTS; on success the UPDATE to fts runs; on sqlite.Error the
exception is caught, nothing is written, and the routine continues. -/
def ftsStep (env : Env) (s : List SettingRow) : List SettingRow :=
  if env.disableFts then s
  else if env.ftsAvailable then updateSettingValue s "search_engine" "fts"
  else s

/-- `exec_schema` (init.py): run SCHEMA_BASE (CREATE TABLE IF NOT EXISTS
plus the INSERT OR IGNORE seeds), then, unless DISABLE_FTS, attempt
SCHEMA_FTS; on success set search_engine to fts, on sqlite.Error print and
continue (the base-schema default stays whatever it already was). -/
def exec_schema (env : Env) (db : DB) : DB :=
  let db1 := { db with
                 settings := seedSettings (seedSettingsList env) db.settings,
                 platforms := seedNames seedPlatformsList db.platforms,
                 genres := seedNames seedGenresList db.genres }
  { db1 with settings := ftsStep env db1.settings }

/-- `ensure_admin` (init.py): look the username up (no is_active filter);
when absent, insert an active ADMIN row with a fresh id and freshly
salted hash. -/
def ensure_admin (o : RunOracle) (users : List UserRow) (u p : String) :
    List UserRow :=
  if users.any (fun r => r.username == u) then users
  else users ++ [⟨o.uid u, u, o.hash u p, "ADMIN", 1, o.now⟩]

/-- The admin loop of `main`. -/
def ensureAdmins (admins : List (String × String)) (o : RunOracle)
    (users : List UserRow) : List UserRow :=
  admins.foldl (fun acc up => ensure_admin o acc up.1 up.2) users

/-- `main` (init.py): exec_schema, upsert the whatsapp_number default,
ensure every configured admin. -/
def provision (env : Env) (o : RunOracle) (db : DB) : DB :=
  let db := exec_schema env db
  let db := { db with
                settings := upsertSetting db.settings "whatsapp_number"
                  env.defaultWhatsapp }
  { db with users := ensureAdmins env.admins o db.users }

/-! ## Helper lemmas -/

theorem isPrefixOf_self_append (pat u : List Char) :
    pat.isPrefixOf (pat ++ u) = true := by
  induction pat with
  | nil => cases u <;> rfl
  | cons c t ih => simp [List.isPrefixOf, ih]

theorem listContains_append (s pat u : List Char) :
    listContains (s ++ pat ++ u) pat = true := by
  induction s with
  | nil =>
    cases pat with
    | nil =>
      cases u with
      | nil => rfl
      | cons c t => simp [listContains]
    | cons c t =>
      simp [listContains, isPrefixOf_self_append (c :: t) u]
  | cons a s ih =>
    simpa [listContains] using Or.inr ih

theorem listContains_of_occurs {pat hay : List Char} (h : OccursIn pat hay) :
    listContains hay pat = true := by
  obtain ⟨s, u, rfl⟩ := h
  exact listContains_append s pat u

theorem occursIn_of_mem_tokenizeAux :
    ∀ (l acc t : List Char), t ∈ tokenizeAux l acc →
      OccursIn t (acc.reverse ++ l) := by
  intro l
  induction l with
  | nil =>
    intro acc t ht
    unfold tokenizeAux at ht
    by_cases hacc : acc.isEmpty
    · simp [hacc] at ht
    · simp [hacc] at ht
      exact ⟨[], [], by simp [ht]⟩
  | cons c rest ih =>
    intro acc t ht
    unfold tokenizeAux at ht
    by_cases htc : isTokenChar c
    · simp only [htc, if_true] at ht
      have := ih (c :: acc) t ht
      obtain ⟨s, u, hsu⟩ := this
      refine ⟨s, u, ?_⟩
      simpa using hsu
    · simp only [htc, Bool.false_eq_true, if_false] at ht
      by_cases hacc : acc.isEmpty
      · simp only [hacc, if_true] at ht
        obtain ⟨s, u, hsu⟩ := ih [] t ht
        have hr : rest = s ++ t ++ u := by simpa using hsu
        have hae : acc = [] := by
          cases acc with
          | nil => rfl
          | cons x xs => simp [List.isEmpty] at hacc
        refine ⟨c :: s, u, ?_⟩
        simp [hae, hr]
      · simp only [hacc, Bool.false_eq_true, if_false, List.mem_cons] at ht
        rcases ht with h1 | h2
        · exact ⟨[], c :: rest, by simp [h1]⟩
        · obtain ⟨s, u, hsu⟩ := ih [] t h2
          have hr : rest = s ++ t ++ u := by simpa using hsu
          refine ⟨acc.reverse ++ c :: s, u, ?_⟩
          simp [hr]

theorem occursIn_of_mem_tokenize {l t : List Char} (h : t ∈ tokenize l) :
    OccursIn t l := by
  have := occursIn_of_mem_tokenizeAux l [] t h
  simpa using this

/-- A (folded) token of the title occurs in the folded title, so the LIKE
substring test accepts it. -/
theorem likeContains_of_token {q s : String}
    (h : (q.data.map foldChar) ∈ ftsTokens s) : likeContains q s = true :=
  listContains_of_occurs (occursIn_of_mem_tokenize h)

/-! ## C5: thumbnail geometry -/

/-- C5: for every decoded input image, the pipeline center-crops to a
square of side min(width, height) at integer-division offsets
((dimension - side) / 2 on each axis) and the produced thumbnail is
exactly 512 by 512 pixels regardless of the input aspect ratio. -/
theorem make_thumb_is_512_square (im : PILImage) :
    make_thumb im = ⟨512, 512⟩ ∧
    cropBoxOf im.width im.height =
      ((im.width - min im.width im.height) / 2,
       (im.height - min im.width im.height) / 2,
       (im.width - min im.width im.height) / 2 + min im.width im.height,
       (im.height - min im.width im.height) / 2 + min im.width im.height) ∧
    (im.convertRGB.crop (cropBoxOf im.width im.height).1
        (cropBoxOf im.width im.height).2.1
        (cropBoxOf im.width im.height).2.2.1
        (cropBoxOf im.width im.height).2.2.2).width = min im.width im.height ∧
    (im.convertRGB.crop (cropBoxOf im.width im.height).1
        (cropBoxOf im.width im.height).2.1
        (cropBoxOf im.width im.height).2.2.1
        (cropBoxOf im.width im.height).2.2.2).height = min im.width im.height := by
  refine ⟨rfl, rfl, ?_, ?_⟩ <;> simp [PILImage.crop, PILImage.convertRGB, cropBoxOf]

/-! ## C3: thumbnail storage path -/

/-- C3 counterexample: ingesting art.png stores the thumbnail as
thumbs/(slug)-(uid).png — the thumbnail file keeps the original .png
extension even though its bytes are the quality-90 JPEG re-encode, so the
extension is NOT normalized to the thumbnail encoding. -/
theorem save_image_png_thumb_keeps_png :
    save_image "art.png" "shadow-quest" "u1" =
      .ok ("originals/shadow-quest-u1.png", "thumbs/shadow-quest-u1.png") ∧
    pySplitextExt "thumbs/shadow-quest-u1.png" = ".png" ∧
    ".png" ≠ ".jpg" := by
  refine ⟨rfl, by decide, by decide⟩

/-- C3 amended: for every successfully ingested upload the thumbnail is
stored under the thumbs area with literally the same basename as the
original — slug, fresh uuid hex, and the original extension lowercased —
with no normalization of the extension to the JPEG encoding. -/
theorem save_image_thumb_same_basename (filename slug uid : String)
    (p : String × String) (h : save_image filename slug uid = .ok p) :
    p.1 = "originals/" ++ (slug ++ "-" ++ uid ++ pyLower (pySplitextExt filename)) ∧
    p.2 = "thumbs/" ++ (slug ++ "-" ++ uid ++ pyLower (pySplitextExt filename)) ∧
    ALLOWED_EXT.contains (pyLower (pySplitextExt filename)) = true := by
  simp only [save_image] at h
  split at h
  next hcond =>
    simp only [Except.ok.injEq] at h
    exact ⟨by rw [← h], by rw [← h], hcond⟩
  next hcond => exact absurd h (by simp)

/-- Witness for C3's amended theorem at a concrete png upload. -/
theorem save_image_thumb_same_basename_witness :
    ("originals/g-u.png", "thumbs/g-u.png").1 =
      "originals/" ++ ("g" ++ "-" ++ "u" ++ pyLower (pySplitextExt "art.png")) ∧
    ("originals/g-u.png", "thumbs/g-u.png").2 =
      "thumbs/" ++ ("g" ++ "-" ++ "u" ++ pyLower (pySplitextExt "art.png")) ∧
    ALLOWED_EXT.contains (pyLower (pySplitextExt "art.png")) = true :=
  save_image_thumb_same_basename "art.png" "g" "u"
    ("originals/g-u.png", "thumbs/g-u.png") rfl

/-! ## C6: CreateGame validation performs no mutation -/

/-- C6: a CreateGame request whose stripped title is empty or whose
platform is missing fails with ValidationError and leaves the system
untouched: the games, game_genres and game_images tables and the physical
file store are exactly the input ones, so no image is ingested. -/
theorem admin_games_new_invalid_is_noop (form : GameForm)
    (actor now gameId : String) (imgIds uids : List String) (sys : Sys)
    (h : pyStrip form.title = "" ∨ form.platform_id = "") :
    admin_games_new form actor now gameId imgIds uids sys =
      (sys, some .validationError) ∧
    (admin_games_new form actor now gameId imgIds uids sys).1.db.games =
      sys.db.games ∧
    (admin_games_new form actor now gameId imgIds uids sys).1.db.game_genres =
      sys.db.game_genres ∧
    (admin_games_new form actor now gameId imgIds uids sys).1.db.game_images =
      sys.db.game_images ∧
    (admin_games_new form actor now gameId imgIds uids sys).1.files = sys.files := by
  have he : admin_games_new form actor now gameId imgIds uids sys =
      (sys, some .validationError) := by
    unfold admin_games_new
    rw [if_pos h]
  exact ⟨he, by rw [he], by rw [he], by rw [he], by rw [he]⟩

/-- Witness for C6 at a concrete whitespace-only title. -/
theorem admin_games_new_invalid_is_noop_witness :
    admin_games_new
        { title := "   ", platform_id := "plat_pc", base_price := "10",
          discount_pct := "0", description := "", genres := [],
          publish := false, images := [⟨"art.png"⟩] }
        "usr_1" "2025-01-01T00:00:00" "game_1" ["img_1"] ["u1"]
        ⟨⟨[], [], [], [], [], [], []⟩, []⟩ =
      (⟨⟨[], [], [], [], [], [], []⟩, []⟩, some .validationError) := by
  have := admin_games_new_invalid_is_noop
    { title := "   ", platform_id := "plat_pc", base_price := "10",
      discount_pct := "0", description := "", genres := [],
      publish := false, images := [⟨"art.png"⟩] }
    "usr_1" "2025-01-01T00:00:00" "game_1" ["img_1"] ["u1"]
    ⟨⟨[], [], [], [], [], [], []⟩, []⟩ (Or.inl (by decide))
  exact this.1

/-! ## C9: TogglePublish is its own inverse -/

/-- `SELECT ... WHERE id=?` with fetchone finds exactly the known row when
ids are unique (the id column is the primary key). -/
theorem find_game_by_id (games : List GameRow) (gid : String) (grow : GameRow)
    (hnd : (games.map fun g => g.id).Nodup) (hg : grow ∈ games)
    (hid : grow.id = gid) :
    games.find? (fun g => g.id == gid) = some grow := by
  cases h1 : games.find? (fun g => g.id == gid) with
  | none =>
    have := List.find?_eq_none.mp h1 grow hg
    simp [hid] at this
  | some g1 =>
    have hmem := List.mem_of_find?_eq_some h1
    have hpred := List.find?_some h1
    have hg1id : g1.id = gid := by simpa using hpred
    have heq : g1 = grow := List.inj_on_of_nodup_map hnd hmem hg (by rw [hg1id, hid])
    rw [heq]

/-- Unfolding admin_games_publish once the row lookup is known. -/
theorem admin_games_publish_spec (sys : Sys) (gid now : String) (g1 : GameRow)
    (h1 : sys.db.games.find? (fun g => g.id == gid) = some g1) :
    admin_games_publish gid now sys =
      ({ sys with db := { sys.db with games := sys.db.games.map fun g =>
          if g.id = gid then
            { g with is_published := if g1.is_published = 1 then 0 else 1,
                     updated_at := now }
          else g } }, none) := by
  unfold admin_games_publish
  rw [h1]

/-- C9: for every existing game whose publish flag is one of the two
legal values 0/1, one TogglePublish flips the flag to the other value
(1 - old), a second TogglePublish restores the original value, both calls
succeed, and rows of other games are untouched. -/
theorem toggle_publish_involutive (sys : Sys) (gid now1 now2 : String)
    (grow : GameRow)
    (hnd : (sys.db.games.map fun g => g.id).Nodup)
    (hg : grow ∈ sys.db.games) (hid : grow.id = gid)
    (hp : grow.is_published = 0 ∨ grow.is_published = 1) :
    ∃ sys1 sys2,
      admin_games_publish gid now1 sys = (sys1, none) ∧
      admin_games_publish gid now2 sys1 = (sys2, none) ∧
      (∀ r ∈ sys1.db.games, r.id = gid →
        r.is_published = 1 - grow.is_published) ∧
      (∀ r ∈ sys2.db.games, r.id = gid →
        r.is_published = grow.is_published) ∧
      (∀ r ∈ sys1.db.games, r.id ≠ gid → r ∈ sys.db.games) := by
  have hfind : sys.db.games.find? (fun g => g.id == gid) = some grow :=
    find_game_by_id sys.db.games gid grow hnd hg hid
  let f1 : GameRow → GameRow := fun g =>
    if g.id = gid then
      { g with is_published := if grow.is_published = 1 then 0 else 1,
               updated_at := now1 }
    else g
  have hf1id : ∀ g, (f1 g).id = g.id := by
    intro g
    by_cases h : g.id = gid <;> simp [f1, h]
  have e1 : admin_games_publish gid now1 sys =
      ({ sys with db := { sys.db with games := sys.db.games.map f1 } }, none) :=
    admin_games_publish_spec sys gid now1 grow hfind
  have hfind2 : (sys.db.games.map f1).find? (fun g => g.id == gid) =
      some (f1 grow) := by
    rw [List.find?_map]
    have hcomp : ((fun g : GameRow => g.id == gid) ∘ f1) =
        fun g : GameRow => g.id == gid := by
      funext g
      simp [Function.comp, hf1id]
    rw [hcomp, hfind]
    rfl
  have hf1g : f1 grow =
      { grow with is_published := if grow.is_published = 1 then 0 else 1,
                  updated_at := now1 } := by
    simp [f1, hid]
  let f2 : GameRow → GameRow := fun g =>
    if g.id = gid then
      { g with is_published := if (f1 grow).is_published = 1 then 0 else 1,
               updated_at := now2 }
    else g
  have e2 : admin_games_publish gid now2
      ({ sys with db := { sys.db with games := sys.db.games.map f1 } }) =
      ({ sys with db := { sys.db with games := (sys.db.games.map f1).map f2 } },
        none) :=
    admin_games_publish_spec _ gid now2 (f1 grow) hfind2
  refine ⟨_, _, e1, e2, ?_, ?_, ?_⟩
  · intro r hr hrid
    obtain ⟨r0, hr0, rfl⟩ := List.mem_map.mp hr
    have hr0id : r0.id = gid := by rw [← hf1id r0]; exact hrid
    rcases hp with h | h <;> simp [f1, hr0id, h]
  · intro r hr hrid
    rw [List.map_map] at hr
    obtain ⟨r0, hr0, rfl⟩ := List.mem_map.mp hr
    have hid2 : ∀ g, (f2 g).id = g.id := by
      intro g
      by_cases h : g.id = gid <;> simp [f2, h]
    have hr0id : r0.id = gid := by
      rw [← hf1id r0, ← hid2 (f1 r0)]
      exact hrid
    rcases hp with h | h <;>
      simp [Function.comp, f1, f2, hr0id, hf1g, hid, h]
  · intro r hr hrid
    obtain ⟨r0, hr0, rfl⟩ := List.mem_map.mp hr
    have hr0id : r0.id ≠ gid := by rw [← hf1id r0]; exact hrid
    simpa [f1, hr0id] using hr0

/-- Witness data for C9: a single published game. -/
def toggleDemoGame : GameRow :=
  { id := "game_1", slug := "shadow-quest", title := "Shadow Quest",
    description := "", platform_id := "plat_pc", base_price := "10",
    discount_pct := "0", whatsapp_override := none, is_published := 1,
    created_by := "usr_1", created_at := "2025-01-01T00:00:00",
    updated_at := "2025-01-01T00:00:00" }

/-- Witness state for C9. -/
def toggleDemoSys : Sys :=
  ⟨⟨[], [], [], [], [toggleDemoGame], [], []⟩, []⟩

/-- Witness for C9 at the concrete one-game state. -/
theorem toggle_publish_involutive_witness :
    ∃ sys1 sys2,
      admin_games_publish "game_1" "t1" toggleDemoSys = (sys1, none) ∧
      admin_games_publish "game_1" "t2" sys1 = (sys2, none) ∧
      (∀ r ∈ sys1.db.games, r.id = "game_1" →
        r.is_published = 1 - toggleDemoGame.is_published) ∧
      (∀ r ∈ sys2.db.games, r.id = "game_1" →
        r.is_published = toggleDemoGame.is_published) ∧
      (∀ r ∈ sys1.db.games, r.id ≠ "game_1" → r ∈ toggleDemoSys.db.games) :=
  toggle_publish_involutive toggleDemoSys "game_1" "t1" "t2" toggleDemoGame
    (by decide) (by decide) (by decide) (Or.inr (by decide))

/-! ## C10: login requires is_active = 1 -/

/-- C10: against a stored user row whose is_active flag is 0, login fails
for every submitted password and every behaviour of the bcrypt
password-check collaborator, because the user lookup filters on
is_active = 1 before the hash comparison (usernames are unique, as the
schema declares). -/
theorem admin_login_inactive_fails (db : DB) (name pw : String)
    (checkpw : String → String → Bool) (u : UserRow)
    (hu : u ∈ db.users) (hn : u.username = name) (ha : u.is_active = 0)
    (hnd : (db.users.map fun r => r.username).Nodup) :
    admin_login name pw checkpw db = none := by
  unfold admin_login
  have hfind : db.users.find?
      (fun r => r.username == name && r.is_active == 1) = none := by
    rw [List.find?_eq_none]
    intro v hv hvp
    rw [Bool.and_eq_true] at hvp
    obtain ⟨h1, h2⟩ := hvp
    have h1x : v.username = name := by simpa using h1
    have h2x : v.is_active = 1 := by simpa using h2
    have hvu : v = u := List.inj_on_of_nodup_map hnd hv hu (by rw [h1x, hn])
    rw [hvu] at h2x
    omega
  rw [hfind]

/-- Witness data for C10: one deactivated admin row. -/
def inactiveUser : UserRow :=
  { id := "usr_1", username := "Adhex", password_hash := "stored-hash",
    role := "ADMIN", is_active := 0, created_at := "2025-01-01T00:00:00" }

/-- Witness state for C10. -/
def inactiveDB : DB := ⟨[], [inactiveUser], [], [], [], [], []⟩

/-- Witness for C10: even a password check that accepts everything cannot
log into the deactivated account. -/
theorem admin_login_inactive_fails_witness :
    admin_login "Adhex" "any-password" (fun _ _ => true) inactiveDB = none :=
  admin_login_inactive_fails inactiveDB "Adhex" "any-password"
    (fun _ _ => true) inactiveUser (by decide) (by decide) (by decide)
    (by decide)

/-! ## C1: SetCover keeps at most one cover per game -/

/-- At most one image of each game is marked cover: any two cover-marked
rows of the same game are the same image. -/
def coverUnique (imgs : List GameImageRow) : Prop :=
  ∀ r ∈ imgs, ∀ s ∈ imgs, r.game_id = s.game_id →
    r.is_cover = 1 → s.is_cover = 1 → r.id = s.id

instance (imgs : List GameImageRow) : Decidable (coverUnique imgs) := by
  unfold coverUnique
  infer_instance

/-- The net per-row effect of the two UPDATE statements of SetCover on a
game's images: the named image becomes the cover and every other image of
the game loses the flag. -/
def setCoverFn (gid iid : String) (r : GameImageRow) : GameImageRow :=
  if r.game_id = gid then
    { r with is_cover := if r.id = iid then 1 else 0 }
  else r

theorem setCoverFn_id (gid iid : String) (r : GameImageRow) :
    (setCoverFn gid iid r).id = r.id := by
  unfold setCoverFn
  by_cases h : r.game_id = gid <;> simp [h]

theorem setCoverFn_game_id (gid iid : String) (r : GameImageRow) :
    (setCoverFn gid iid r).game_id = r.game_id := by
  unfold setCoverFn
  by_cases h : r.game_id = gid <;> simp [h]

/-- fetchone on the image id with unique ids (id is the primary key). -/
theorem find_image_by_id (imgs : List GameImageRow) (iid : String)
    (row : GameImageRow) (hnd : (imgs.map fun r => r.id).Nodup)
    (hr : row ∈ imgs) (hid : row.id = iid) :
    imgs.find? (fun r => r.id == iid) = some row := by
  cases h1 : imgs.find? (fun r => r.id == iid) with
  | none =>
    have := List.find?_eq_none.mp h1 row hr
    simp [hid] at this
  | some r1 =>
    have hmem := List.mem_of_find?_eq_some h1
    have hpred := List.find?_some h1
    have hr1id : r1.id = iid := by simpa using hpred
    have heq : r1 = row := List.inj_on_of_nodup_map hnd hmem hr (by rw [hr1id, hid])
    rw [heq]

/-- Unfolding admin_image_set_cover once the row lookup is known. -/
theorem admin_image_set_cover_spec (sys : Sys) (iid : String)
    (row : GameImageRow)
    (h1 : sys.db.game_images.find? (fun r => r.id == iid) = some row) :
    admin_image_set_cover iid sys =
      ({ sys with db := { sys.db with game_images :=
          ((sys.db.game_images.map (fun r =>
            if r.game_id = row.game_id then { r with is_cover := 0 } else r)).map
            (fun r => if r.id = iid then { r with is_cover := 1 } else r)) } },
        none) := by
  unfold admin_image_set_cover
  rw [h1]

/-- With unique image ids, the clear-then-set pair of UPDATEs is the
single per-row map `setCoverFn`. -/
theorem set_cover_exact_map (imgs : List GameImageRow) (iid : String)
    (row : GameImageRow) (hnd : (imgs.map fun r => r.id).Nodup)
    (hr : row ∈ imgs) (hid : row.id = iid) :
    ((imgs.map fun r =>
        if r.game_id = row.game_id then { r with is_cover := 0 } else r).map
      fun r => if r.id = iid then { r with is_cover := 1 } else r) =
    imgs.map (setCoverFn row.game_id iid) := by
  rw [List.map_map]
  apply List.map_congr_left
  intro a ha
  by_cases hgm : a.game_id = row.game_id
  · by_cases haid : a.id = iid
    · simp [Function.comp, setCoverFn, hgm, haid]
    · simp [Function.comp, setCoverFn, hgm, haid]
  · have haid : a.id ≠ iid := by
      intro hcontra
      have : a = row := List.inj_on_of_nodup_map hnd ha hr (by rw [hcontra, hid])
      exact hgm (by rw [this])
    simp [Function.comp, setCoverFn, hgm, haid]

/-- `setCoverFn` establishes cover uniqueness for the touched game and
preserves it for every other game. -/
theorem coverUnique_map_setCoverFn (imgs : List GameImageRow)
    (gid iid : String) (hcu : coverUnique imgs) :
    coverUnique (imgs.map (setCoverFn gid iid)) := by
  intro r hr s hs hgm hrc hsc
  obtain ⟨r0, hr0, rfl⟩ := List.mem_map.mp hr
  obtain ⟨s0, hs0, rfl⟩ := List.mem_map.mp hs
  have hgm0 : r0.game_id = s0.game_id := by
    rw [← setCoverFn_game_id gid iid r0, ← setCoverFn_game_id gid iid s0]
    exact hgm
  rw [setCoverFn_id, setCoverFn_id]
  by_cases h1 : r0.game_id = gid
  · have h2 : s0.game_id = gid := by rw [← hgm0]; exact h1
    have hr0i : r0.id = iid := by
      by_cases hc : r0.id = iid
      · exact hc
      · simp [setCoverFn, h1, hc] at hrc
    have hs0i : s0.id = iid := by
      by_cases hc : s0.id = iid
      · exact hc
      · simp [setCoverFn, h2, hc] at hsc
    rw [hr0i, hs0i]
  · have h2 : ¬s0.game_id = gid := by rw [← hgm0]; exact h1
    have hrc0 : r0.is_cover = 1 := by simpa [setCoverFn, h1] using hrc
    have hsc0 : s0.is_cover = 1 := by simpa [setCoverFn, h2] using hsc
    exact hcu r0 hr0 s0 hs0 hgm0 hrc0 hsc0

/-- C1: with unique image ids (the primary key) and at most one cover per
game, SetCover(x) followed by SetCover(y) for two images of the same game
succeeds, leaves exactly y marked as that game's cover, keeps the
at-most-one-cover invariant for every game, and SetCover of any id not in
game_images fails with NotFound leaving the state unchanged. -/
theorem set_cover_correct (sys : Sys) (x y : String)
    (xrow yrow : GameImageRow)
    (hnd : (sys.db.game_images.map fun r => r.id).Nodup)
    (hcu : coverUnique sys.db.game_images)
    (hx : xrow ∈ sys.db.game_images) (hy : yrow ∈ sys.db.game_images)
    (hxid : xrow.id = x) (hyid : yrow.id = y)
    (hsame : xrow.game_id = yrow.game_id) :
    ∃ sys1 sys2,
      admin_image_set_cover x sys = (sys1, none) ∧
      admin_image_set_cover y sys1 = (sys2, none) ∧
      (∀ r ∈ sys2.db.game_images, r.game_id = yrow.game_id →
        (r.is_cover = 1 ↔ r.id = y)) ∧
      coverUnique sys2.db.game_images ∧
      (∀ z, (∀ r ∈ sys.db.game_images, r.id ≠ z) →
        admin_image_set_cover z sys = (sys, some .notFound)) := by
  have hfx : sys.db.game_images.find? (fun r => r.id == x) = some xrow :=
    find_image_by_id _ x xrow hnd hx hxid
  have e1 := admin_image_set_cover_spec sys x xrow hfx
  rw [set_cover_exact_map sys.db.game_images x xrow hnd hx hxid] at e1
  have hnd1 : ((sys.db.game_images.map
      (setCoverFn xrow.game_id x)).map fun r => r.id).Nodup := by
    rw [List.map_map]
    have : ((fun r : GameImageRow => r.id) ∘ setCoverFn xrow.game_id x) =
        fun r : GameImageRow => r.id := by
      funext r
      simp [Function.comp, setCoverFn_id]
    rw [this]
    exact hnd
  have hy1 : setCoverFn xrow.game_id x yrow ∈
      sys.db.game_images.map (setCoverFn xrow.game_id x) :=
    List.mem_map.mpr ⟨yrow, hy, rfl⟩
  have hy1id : (setCoverFn xrow.game_id x yrow).id = y := by
    rw [setCoverFn_id]
    exact hyid
  have hy1gm : (setCoverFn xrow.game_id x yrow).game_id = yrow.game_id :=
    setCoverFn_game_id _ _ _
  have hfy : (sys.db.game_images.map (setCoverFn xrow.game_id x)).find?
      (fun r => r.id == y) = some (setCoverFn xrow.game_id x yrow) :=
    find_image_by_id _ y _ hnd1 hy1 hy1id
  have e2 := admin_image_set_cover_spec
    ({ sys with db := { sys.db with game_images :=
        (sys.db.game_images.map (setCoverFn xrow.game_id x)) } }) y _ hfy
  rw [set_cover_exact_map _ y _ hnd1 hy1 hy1id] at e2
  rw [hy1gm] at e2
  refine ⟨_, _, e1, e2, ?_, ?_, ?_⟩
  · intro r hr hrg
    obtain ⟨r1, hr1, rfl⟩ := List.mem_map.mp hr
    by_cases h1 : r1.game_id = yrow.game_id
    · constructor
      · intro hc
        by_cases hc2 : r1.id = y
        · rw [setCoverFn_id]; exact hc2
        · simp [setCoverFn, h1, hc2] at hc
      · intro hc
        rw [setCoverFn_id] at hc
        simp [setCoverFn, h1, hc]
    · exfalso
      rw [setCoverFn_game_id] at hrg
      exact h1 hrg
  · exact coverUnique_map_setCoverFn _ yrow.game_id y
      (coverUnique_map_setCoverFn _ xrow.game_id x hcu)
  · intro z hz
    have hfz : sys.db.game_images.find? (fun r => r.id == z) = none := by
      rw [List.find?_eq_none]
      intro r hrmem hrp
      exact hz r hrmem (by simpa using hrp)
    unfold admin_image_set_cover
    rw [hfz]

/-- Witness data for C1: two images of one game, the first currently the
cover. -/
def coverImgA : GameImageRow :=
  { id := "img_a", game_id := "game_1", file_name := "a.png",
    file_path := "originals/a.png", thumb_path := "thumbs/a.png",
    is_cover := 1, order_idx := 0 }

/-- Second witness image for C1. -/
def coverImgB : GameImageRow :=
  { id := "img_b", game_id := "game_1", file_name := "b.png",
    file_path := "originals/b.png", thumb_path := "thumbs/b.png",
    is_cover := 0, order_idx := 1 }

/-- Witness state for C1. -/
def coverDemoSys : Sys :=
  ⟨⟨[], [], [], [], [], [], [coverImgA, coverImgB]⟩,
   ["originals/a.png", "thumbs/a.png", "originals/b.png", "thumbs/b.png"]⟩

/-- Witness for C1 at the concrete two-image state. -/
theorem set_cover_correct_witness :
    ∃ sys1 sys2,
      admin_image_set_cover "img_a" coverDemoSys = (sys1, none) ∧
      admin_image_set_cover "img_b" sys1 = (sys2, none) ∧
      (∀ r ∈ sys2.db.game_images, r.game_id = coverImgB.game_id →
        (r.is_cover = 1 ↔ r.id = "img_b")) ∧
      coverUnique sys2.db.game_images ∧
      (∀ z, (∀ r ∈ coverDemoSys.db.game_images, r.id ≠ z) →
        admin_image_set_cover z coverDemoSys =
          (coverDemoSys, some .notFound)) :=
  set_cover_correct coverDemoSys "img_a" "img_b" coverImgA coverImgB
    (by decide) (by decide) (by decide) (by decide) (by decide) (by decide)
    (by decide)

/-! ## C8: UpdateGame without a new image batch leaves images alone -/

theorem updateGameRow_id (form : GameForm) (now gid : String) (g : GameRow) :
    (updateGameRow form now gid g).id = g.id := by
  unfold updateGameRow
  by_cases h : g.id = gid <;> simp [h]

/-- A genre row surviving the reconciliation for another game was already
linked. -/
theorem syncGenres_mem_of_ne (gid : String) (gs : List String)
    (gg : List GameGenreRow) (r : GameGenreRow)
    (hr : r ∈ syncGenres gid gs gg) (hne : r.game_id ≠ gid) : r ∈ gg := by
  unfold syncGenres at hr
  obtain ⟨hmem, _⟩ := List.mem_filter.mp hr
  rcases List.mem_append.mp hmem with h | h
  · exact h
  · exfalso
    obtain ⟨g0, _, rfl⟩ := List.mem_map.mp h
    exact hne rfl

/-- Genre links of other games survive the reconciliation. -/
theorem syncGenres_keeps_of_ne (gid : String) (gs : List String)
    (gg : List GameGenreRow) (r : GameGenreRow)
    (hr : r ∈ gg) (hne : r.game_id ≠ gid) : r ∈ syncGenres gid gs gg := by
  unfold syncGenres
  refine List.mem_filter.mpr ⟨List.mem_append_left _ hr, ?_⟩
  have hb : (r.game_id == gid) = false := beq_eq_false_iff_ne.mpr hne
  rw [hb]
  rfl

/-- Unfolding admin_games_edit when the game exists, the form validates,
and no uploaded file passes the format check. -/
theorem admin_games_edit_no_batch_spec (sys : Sys) (gid now : String)
    (form : GameForm) (imgIds uids : List String) (g1 : GameRow)
    (hfind : sys.db.games.find? (fun g => g.id == gid) = some g1)
    (hval : ¬(pyStrip form.title = "" ∨ form.platform_id = ""))
    (hnob : form.images.any (fun f => allowed_file f.filename) = false) :
    admin_games_edit gid form now imgIds uids sys =
      ({ sys with db := { sys.db with
          games := (sys.db.games.map (updateGameRow form now gid)),
          game_genres := (syncGenres gid form.genres sys.db.game_genres) } },
        none) := by
  unfold admin_games_edit
  rw [hfind]
  simp only [if_neg hval, hnob, Bool.false_eq_true, if_false]

/-- C8: an UpdateGame call on an existing game whose batch contains no
file passing format validation succeeds and leaves the game_images table,
the physical file store, and the settings/users/taxonomy tables exactly
as they were; rows of other games and genre links of other games are
untouched; only the game's scalar row and its own genre links may
change. -/
theorem admin_games_edit_no_batch_frame (sys : Sys) (gid now : String)
    (form : GameForm) (imgIds uids : List String) (grow : GameRow)
    (hg : grow ∈ sys.db.games) (hid : grow.id = gid)
    (hval : ¬(pyStrip form.title = "" ∨ form.platform_id = ""))
    (hnob : ∀ f ∈ form.images, allowed_file f.filename = false) :
    ∃ sys2,
      admin_games_edit gid form now imgIds uids sys = (sys2, none) ∧
      sys2.db.game_images = sys.db.game_images ∧
      sys2.files = sys.files ∧
      sys2.db.settings = sys.db.settings ∧
      sys2.db.users = sys.db.users ∧
      sys2.db.platforms = sys.db.platforms ∧
      sys2.db.genres = sys.db.genres ∧
      (∀ r ∈ sys2.db.games, r.id ≠ gid → r ∈ sys.db.games) ∧
      (∀ r ∈ sys2.db.game_genres, r.game_id ≠ gid → r ∈ sys.db.game_genres) ∧
      (∀ r ∈ sys.db.game_genres, r.game_id ≠ gid → r ∈ sys2.db.game_genres) := by
  obtain ⟨g1, hfind⟩ : ∃ g1,
      sys.db.games.find? (fun g => g.id == gid) = some g1 := by
    cases h : sys.db.games.find? (fun g => g.id == gid) with
    | none =>
      have := List.find?_eq_none.mp h grow hg
      simp [hid] at this
    | some g1 => exact ⟨g1, rfl⟩
  have hany : form.images.any (fun f => allowed_file f.filename) = false :=
    List.any_eq_false.mpr fun f hf => by simp [hnob f hf]
  have he := admin_games_edit_no_batch_spec sys gid now form imgIds uids g1
    hfind hval hany
  refine ⟨_, he, rfl, rfl, rfl, rfl, rfl, rfl, ?_, ?_, ?_⟩
  · intro r hr hne
    obtain ⟨r0, hr0, rfl⟩ := List.mem_map.mp hr
    have : r0.id ≠ gid := by rw [← updateGameRow_id form now gid r0]; exact hne
    simpa [updateGameRow, this] using hr0
  · intro r hr hne
    exact syncGenres_mem_of_ne gid form.genres sys.db.game_genres r hr hne
  · intro r hr hne
    exact syncGenres_keeps_of_ne gid form.genres sys.db.game_genres r hr hne

/-- Witness data for C8: one game with one stored image and its files. -/
def editDemoSys : Sys :=
  ⟨⟨[], [], [], [], [toggleDemoGame], [⟨"game_1", "gen_rpg"⟩], [coverImgA]⟩,
   ["originals/a.png", "thumbs/a.png"]⟩

/-- Witness form for C8: a valid edit with no uploaded files. -/
def editDemoForm : GameForm :=
  { title := "Shadow Quest II", platform_id := "plat_pc", base_price := "12",
    discount_pct := "5", description := "sequel", genres := ["gen_rpg"],
    publish := true, images := [] }

/-- Witness for C8 at the concrete one-game state. -/
theorem admin_games_edit_no_batch_frame_witness :
    ∃ sys2,
      admin_games_edit "game_1" editDemoForm "t3" [] [] editDemoSys =
        (sys2, none) ∧
      sys2.db.game_images = editDemoSys.db.game_images ∧
      sys2.files = editDemoSys.files ∧
      sys2.db.settings = editDemoSys.db.settings ∧
      sys2.db.users = editDemoSys.db.users ∧
      sys2.db.platforms = editDemoSys.db.platforms ∧
      sys2.db.genres = editDemoSys.db.genres ∧
      (∀ r ∈ sys2.db.games, r.id ≠ "game_1" → r ∈ editDemoSys.db.games) ∧
      (∀ r ∈ sys2.db.game_genres, r.game_id ≠ "game_1" →
        r ∈ editDemoSys.db.game_genres) ∧
      (∀ r ∈ editDemoSys.db.game_genres, r.game_id ≠ "game_1" →
        r ∈ sys2.db.game_genres) :=
  admin_games_edit_no_batch_frame editDemoSys "game_1" "t3" editDemoForm
    [] [] toggleDemoGame (by decide) (by decide) (by decide)
    (by intro f hf; simp [editDemoForm] at hf)

/-! ## Settings-table lemmas for the provisioner claims -/

theorem settingKeyPresent_insert_self (s : List SettingRow) (k v : String) :
    settingKeyPresent (insertOrIgnoreSetting s k v) k = true := by
  unfold insertOrIgnoreSetting
  by_cases h : settingKeyPresent s k = true
  · rw [if_pos h]
    exact h
  · rw [if_neg h]
    simp [settingKeyPresent, List.any_append]

theorem settingKeyPresent_insert_mono (s : List SettingRow) (k v k' : String)
    (h : settingKeyPresent s k' = true) :
    settingKeyPresent (insertOrIgnoreSetting s k v) k' = true := by
  unfold insertOrIgnoreSetting
  by_cases hc : settingKeyPresent s k = true
  · rw [if_pos hc]
    exact h
  · rw [if_neg hc]
    unfold settingKeyPresent at h ⊢
    simp [List.any_append, h]

theorem settingKeyPresent_update (s : List SettingRow) (k v k' : String) :
    settingKeyPresent (updateSettingValue s k v) k' = settingKeyPresent s k' := by
  unfold settingKeyPresent updateSettingValue
  rw [List.any_map]
  congr 1
  funext r
  by_cases h : r.key = k <;> simp [Function.comp, h]

theorem insertOrIgnore_of_present (s : List SettingRow) (k v : String)
    (h : settingKeyPresent s k = true) : insertOrIgnoreSetting s k v = s := by
  unfold insertOrIgnoreSetting
  rw [if_pos h]

theorem updateSettingValue_noop (s : List SettingRow) (k v : String)
    (h : ∀ r ∈ s, r.key = k → r.value = v) : updateSettingValue s k v = s := by
  unfold updateSettingValue
  have : s.map (fun r => if r.key = k then ⟨r.key, v⟩ else r) = s.map id := by
    apply List.map_congr_left
    intro a ha
    obtain ⟨ak, av⟩ := a
    by_cases hk : ak = k
    · have hv := h ⟨ak, av⟩ ha hk
      simp only [id]
      rw [if_pos hk, ← hv]
    · simp [hk]
  simpa using this

theorem upsert_of_present_same (s : List SettingRow) (k v : String)
    (hp : settingKeyPresent s k = true)
    (h : ∀ r ∈ s, r.key = k → r.value = v) : upsertSetting s k v = s := by
  unfold upsertSetting
  rw [if_pos hp]
  exact updateSettingValue_noop s k v h

theorem settingKeyPresent_upsert_self (s : List SettingRow) (k v : String) :
    settingKeyPresent (upsertSetting s k v) k = true := by
  unfold upsertSetting
  by_cases hp : settingKeyPresent s k = true
  · rw [if_pos hp, settingKeyPresent_update]
    exact hp
  · rw [if_neg hp]
    simp [settingKeyPresent, List.any_append]

theorem settingKeyPresent_upsert_mono (s : List SettingRow) (k v k' : String)
    (h : settingKeyPresent s k' = true) :
    settingKeyPresent (upsertSetting s k v) k' = true := by
  unfold upsertSetting
  by_cases hp : settingKeyPresent s k = true
  · rw [if_pos hp, settingKeyPresent_update]
    exact h
  · rw [if_neg hp]
    unfold settingKeyPresent at h ⊢
    simp [List.any_append, h]

theorem values_after_update (s : List SettingRow) (k v : String) :
    ∀ r ∈ updateSettingValue s k v, r.key = k → r.value = v := by
  intro r hr hk
  obtain ⟨r0, hr0, rfl⟩ := List.mem_map.mp hr
  by_cases h0 : r0.key = k
  · simp [h0]
  · rw [if_neg h0] at hk
    exact absurd hk h0

theorem values_after_upsert (s : List SettingRow) (k v : String) :
    ∀ r ∈ upsertSetting s k v, r.key = k → r.value = v := by
  unfold upsertSetting
  by_cases hp : settingKeyPresent s k = true
  · rw [if_pos hp]
    exact values_after_update s k v
  · rw [if_neg hp]
    intro r hr hk
    rcases List.mem_append.mp hr with h | h
    · exfalso
      unfold settingKeyPresent at hp
      have hfalse : (s.any fun r => r.key == k) = false :=
        Bool.eq_false_iff.mpr hp
      have := List.any_eq_false.mp hfalse r h
      simp [hk] at this
    · simp at h
      rw [h]

theorem values_update_other (s : List SettingRow) (k v k' v' : String)
    (hne : k' ≠ k) (h : ∀ r ∈ s, r.key = k' → r.value = v') :
    ∀ r ∈ updateSettingValue s k v, r.key = k' → r.value = v' := by
  intro r hr hk
  obtain ⟨r0, hr0, rfl⟩ := List.mem_map.mp hr
  by_cases h0 : r0.key = k
  · rw [if_pos h0] at hk ⊢
    exact absurd (by rw [← hk]; exact h0) hne
  · rw [if_neg h0] at hk ⊢
    exact h r0 hr0 hk

theorem values_upsert_other (s : List SettingRow) (k v k' v' : String)
    (hne : k' ≠ k) (h : ∀ r ∈ s, r.key = k' → r.value = v') :
    ∀ r ∈ upsertSetting s k v, r.key = k' → r.value = v' := by
  unfold upsertSetting
  by_cases hp : settingKeyPresent s k = true
  · rw [if_pos hp]
    exact values_update_other s k v k' v' hne h
  · rw [if_neg hp]
    intro r hr hk
    rcases List.mem_append.mp hr with hm | hm
    · exact h r hm hk
    · simp at hm
      rw [hm] at hk
      have hk2 : k = k' := by simpa using hk
      exact absurd hk2 fun hh => hne hh.symm

theorem values_insert (s : List SettingRow) (k v : String)
    (h : ∀ r ∈ s, r.key = k → r.value = v) :
    ∀ r ∈ insertOrIgnoreSetting s k v, r.key = k → r.value = v := by
  unfold insertOrIgnoreSetting
  by_cases hp : settingKeyPresent s k = true
  · rw [if_pos hp]
    exact h
  · rw [if_neg hp]
    intro r hr hk
    rcases List.mem_append.mp hr with hm | hm
    · exact h r hm hk
    · simp at hm
      rw [hm]

theorem values_insert_other (s : List SettingRow) (k v k' v' : String)
    (hne : k' ≠ k) (h : ∀ r ∈ s, r.key = k' → r.value = v') :
    ∀ r ∈ insertOrIgnoreSetting s k v, r.key = k' → r.value = v' := by
  unfold insertOrIgnoreSetting
  by_cases hp : settingKeyPresent s k = true
  · rw [if_pos hp]
    exact h
  · rw [if_neg hp]
    intro r hr hk
    rcases List.mem_append.mp hr with hm | hm
    · exact h r hm hk
    · simp at hm
      rw [hm] at hk
      have hk2 : k = k' := by simpa using hk
      exact absurd hk2 fun hh => hne hh.symm

theorem lookupSetting_eq (s : List SettingRow) (k v : String)
    (hp : settingKeyPresent s k = true)
    (h : ∀ r ∈ s, r.key = k → r.value = v) : lookupSetting s k = some v := by
  unfold lookupSetting
  cases h1 : s.find? (fun r => r.key == k) with
  | none =>
    exfalso
    unfold settingKeyPresent at hp
    obtain ⟨r, hr, hrp⟩ := List.any_eq_true.mp hp
    exact absurd hrp (by simpa using List.find?_eq_none.mp h1 r hr)
  | some r =>
    have hmem := List.mem_of_find?_eq_some h1
    have hkey : r.key = k := by simpa using List.find?_some h1
    simp [h r hmem hkey]

/-! ## Seed-fold, admin-ensure and taxonomy lemmas -/

theorem seedSettings_mono (pairs : List (String × String))
    (s : List SettingRow) (k : String) (h : settingKeyPresent s k = true) :
    settingKeyPresent (seedSettings pairs s) k = true := by
  induction pairs generalizing s with
  | nil => exact h
  | cons a t ih =>
    unfold seedSettings at ih ⊢
    simp only [List.foldl_cons]
    exact ih _ (settingKeyPresent_insert_mono s a.1 a.2 k h)

theorem seedSettings_present (pairs : List (String × String))
    (s : List SettingRow) :
    ∀ kv ∈ pairs, settingKeyPresent (seedSettings pairs s) kv.1 = true := by
  induction pairs generalizing s with
  | nil => intro kv hkv; cases hkv
  | cons a t ih =>
    intro kv hkv
    unfold seedSettings
    simp only [List.foldl_cons]
    rcases List.mem_cons.mp hkv with h | h
    · rw [h]
      exact seedSettings_mono t _ a.1 (settingKeyPresent_insert_self s a.1 a.2)
    · exact ih _ kv h

theorem seedSettings_noop (pairs : List (String × String))
    (s : List SettingRow)
    (h : ∀ kv ∈ pairs, settingKeyPresent s kv.1 = true) :
    seedSettings pairs s = s := by
  induction pairs with
  | nil => rfl
  | cons a t ih =>
    unfold seedSettings at ih ⊢
    simp only [List.foldl_cons]
    rw [insertOrIgnore_of_present s a.1 a.2 (h a (List.mem_cons_self a t))]
    exact ih fun kv hkv => h kv (List.mem_cons_of_mem a hkv)

theorem ensure_admin_present_self (o : RunOracle) (users : List UserRow)
    (u p : String) :
    (ensure_admin o users u p).any (fun r => r.username == u) = true := by
  unfold ensure_admin
  by_cases h : (users.any fun r => r.username == u) = true
  · rw [if_pos h]
    exact h
  · rw [if_neg h]
    simp [List.any_append]

theorem ensure_admin_present_mono (o : RunOracle) (users : List UserRow)
    (u p u' : String) (h : (users.any fun r => r.username == u') = true) :
    (ensure_admin o users u p).any (fun r => r.username == u') = true := by
  unfold ensure_admin
  by_cases hc : (users.any fun r => r.username == u) = true
  · rw [if_pos hc]
    exact h
  · rw [if_neg hc]
    simp [List.any_append, h]

theorem ensure_admin_noop (o : RunOracle) (users : List UserRow) (u p : String)
    (h : (users.any fun r => r.username == u) = true) :
    ensure_admin o users u p = users := by
  unfold ensure_admin
  rw [if_pos h]

theorem ensureAdmins_mono (admins : List (String × String)) (o : RunOracle)
    (users : List UserRow) (u' : String)
    (h : (users.any fun r => r.username == u') = true) :
    (ensureAdmins admins o users).any (fun r => r.username == u') = true := by
  induction admins generalizing users with
  | nil => exact h
  | cons a t ih =>
    unfold ensureAdmins at ih ⊢
    simp only [List.foldl_cons]
    exact ih _ (ensure_admin_present_mono o users a.1 a.2 u' h)

theorem ensureAdmins_present (admins : List (String × String)) (o : RunOracle)
    (users : List UserRow) :
    ∀ up ∈ admins,
      (ensureAdmins admins o users).any (fun r => r.username == up.1) = true := by
  induction admins generalizing users with
  | nil => intro up hup; cases hup
  | cons a t ih =>
    intro up hup
    unfold ensureAdmins
    simp only [List.foldl_cons]
    rcases List.mem_cons.mp hup with h | h
    · rw [h]
      exact ensureAdmins_mono t o _ a.1 (ensure_admin_present_self o users a.1 a.2)
    · exact ih _ up h

theorem ensureAdmins_noop (admins : List (String × String)) (o : RunOracle)
    (users : List UserRow)
    (h : ∀ up ∈ admins, (users.any fun r => r.username == up.1) = true) :
    ensureAdmins admins o users = users := by
  induction admins with
  | nil => rfl
  | cons a t ih =>
    unfold ensureAdmins at ih ⊢
    simp only [List.foldl_cons]
    rw [ensure_admin_noop o users a.1 a.2 (h a (List.mem_cons_self a t))]
    exact ih fun up hup => h up (List.mem_cons_of_mem a hup)

theorem nameConflict_insert_self (l : List NameRow) (id name : String) :
    nameConflict (insertOrIgnoreName l id name) id name = true := by
  unfold insertOrIgnoreName
  by_cases h : nameConflict l id name = true
  · rw [if_pos h]
    exact h
  · rw [if_neg h]
    simp [nameConflict, List.any_append]

theorem nameConflict_insert_mono (l : List NameRow) (id name id2 name2 : String)
    (h : nameConflict l id2 name2 = true) :
    nameConflict (insertOrIgnoreName l id name) id2 name2 = true := by
  unfold insertOrIgnoreName
  by_cases hc : nameConflict l id name = true
  · rw [if_pos hc]
    exact h
  · rw [if_neg hc]
    unfold nameConflict at h ⊢
    simp [List.any_append, h]

theorem insertOrIgnoreName_noop (l : List NameRow) (id name : String)
    (h : nameConflict l id name = true) : insertOrIgnoreName l id name = l := by
  unfold insertOrIgnoreName
  rw [if_pos h]

theorem seedNames_mono (pairs : List (String × String)) (l : List NameRow)
    (id2 name2 : String) (h : nameConflict l id2 name2 = true) :
    nameConflict (seedNames pairs l) id2 name2 = true := by
  induction pairs generalizing l with
  | nil => exact h
  | cons a t ih =>
    unfold seedNames at ih ⊢
    simp only [List.foldl_cons]
    exact ih _ (nameConflict_insert_mono l a.1 a.2 id2 name2 h)

theorem seedNames_conflict (pairs : List (String × String)) (l : List NameRow) :
    ∀ kv ∈ pairs, nameConflict (seedNames pairs l) kv.1 kv.2 = true := by
  induction pairs generalizing l with
  | nil => intro kv hkv; cases hkv
  | cons a t ih =>
    intro kv hkv
    unfold seedNames
    simp only [List.foldl_cons]
    rcases List.mem_cons.mp hkv with h | h
    · rw [h]
      exact seedNames_mono t _ a.1 a.2 (nameConflict_insert_self l a.1 a.2)
    · exact ih _ kv h

theorem seedNames_noop (pairs : List (String × String)) (l : List NameRow)
    (h : ∀ kv ∈ pairs, nameConflict l kv.1 kv.2 = true) :
    seedNames pairs l = l := by
  induction pairs with
  | nil => rfl
  | cons a t ih =>
    unfold seedNames at ih ⊢
    simp only [List.foldl_cons]
    rw [insertOrIgnoreName_noop l a.1 a.2 (h a (List.mem_cons_self a t))]
    exact ih fun kv hkv => h kv (List.mem_cons_of_mem a hkv)

theorem seedNames_idem (pairs : List (String × String)) (l : List NameRow) :
    seedNames pairs (seedNames pairs l) = seedNames pairs l :=
  seedNames_noop pairs _ (seedNames_conflict pairs l)

/-! ## C2 / C4: the Schema Provisioner -/

/-- The settings pipeline of one provisioner run: base-schema seeding,
the FTS attempt, then the whatsapp_number upsert. -/
def settingsAfter (env : Env) (s : List SettingRow) : List SettingRow :=
  upsertSetting (ftsStep env (seedSettings (seedSettingsList env) s))
    "whatsapp_number" env.defaultWhatsapp

/-- One provisioner run, component by component. -/
theorem provision_eq (env : Env) (o : RunOracle) (db : DB) :
    provision env o db =
      ⟨settingsAfter env db.settings,
       ensureAdmins env.admins o db.users,
       seedNames seedPlatformsList db.platforms,
       seedNames seedGenresList db.genres,
       db.games, db.game_genres, db.game_images⟩ := rfl

/-- Every seeded settings key is present after a run. -/
theorem settingsAfter_present (env : Env) (s : List SettingRow) :
    ∀ kv ∈ seedSettingsList env,
      settingKeyPresent (settingsAfter env s) kv.1 = true := by
  intro kv hkv
  unfold settingsAfter
  apply settingKeyPresent_upsert_mono
  unfold ftsStep
  by_cases hd : env.disableFts = true
  · rw [if_pos hd]
    exact seedSettings_present _ s kv hkv
  · rw [if_neg hd]
    by_cases ha : env.ftsAvailable = true
    · rw [if_pos ha, settingKeyPresent_update]
      exact seedSettings_present _ s kv hkv
    · rw [if_neg ha]
      exact seedSettings_present _ s kv hkv

/-- After a run, every whatsapp_number row holds the configured default. -/
theorem settingsAfter_whatsapp (env : Env) (s : List SettingRow) :
    ∀ r ∈ settingsAfter env s, r.key = "whatsapp_number" →
      r.value = env.defaultWhatsapp :=
  values_after_upsert _ _ _

/-- When the FTS attempt succeeds, every search_engine row holds fts. -/
theorem settingsAfter_fts (env : Env) (s : List SettingRow)
    (hd : env.disableFts = false) (ha : env.ftsAvailable = true) :
    ∀ r ∈ settingsAfter env s, r.key = "search_engine" → r.value = "fts" := by
  unfold settingsAfter ftsStep
  rw [hd, ha]
  simp only [Bool.false_eq_true, if_false, if_true]
  exact values_upsert_other _ _ _ _ _ (by decide) (values_after_update _ _ _)

/-- The settings pipeline is idempotent. -/
theorem settingsAfter_idem (env : Env) (s : List SettingRow) :
    settingsAfter env (settingsAfter env s) = settingsAfter env s := by
  have hpres := settingsAfter_present env s
  have hseed : seedSettings (seedSettingsList env) (settingsAfter env s) =
      settingsAfter env s := seedSettings_noop _ _ hpres
  have hwap : settingKeyPresent (settingsAfter env s) "whatsapp_number" = true :=
    hpres ("whatsapp_number", env.defaultWhatsapp) (by simp [seedSettingsList])
  have hfts : ftsStep env (settingsAfter env s) = settingsAfter env s := by
    unfold ftsStep
    by_cases hd : env.disableFts = true
    · rw [if_pos hd]
    · rw [if_neg hd]
      by_cases ha : env.ftsAvailable = true
      · rw [if_pos ha]
        exact updateSettingValue_noop _ _ _
          (settingsAfter_fts env s (Bool.eq_false_iff.mpr hd) ha)
      · rw [if_neg ha]
  show upsertSetting
      (ftsStep env (seedSettings (seedSettingsList env) (settingsAfter env s)))
      "whatsapp_number" env.defaultWhatsapp = settingsAfter env s
  rw [hseed, hfts]
  exact upsert_of_present_same _ _ _ hwap (settingsAfter_whatsapp env s)

/-- C2 amended: running the provisioner a second time (with fresh random
ids, salts and clock) is a no-op on the whole database: the settings,
users (hence admin usernames), platforms and genres tables after the
second run are identical to those after the first, so in particular no
duplicate taxonomy row is ever introduced.  (The claim's stronger reading
that seeding never overwrites existing rows fails: see the
counterexample.) -/
theorem provision_idempotent (env : Env) (o1 o2 : RunOracle) (db : DB) :
    provision env o2 (provision env o1 db) = provision env o1 db := by
  rw [provision_eq env o1 db, provision_eq env o2]
  simp only [DB.mk.injEq, and_true]
  exact ⟨settingsAfter_idem env db.settings,
         ensureAdmins_noop _ o2 _
           (fun up hup => ensureAdmins_present _ o1 _ up hup),
         seedNames_idem _ _, seedNames_idem _ _⟩

/-- Counterexample state for C2: a settings store already holding a
customized whatsapp_number. -/
def overwriteDemoDB : DB :=
  ⟨[⟨"whatsapp_number", "custom-number"⟩], [], [], [], [], [], []⟩

/-- The default provisioner environment of init.py. -/
def demoEnv : Env :=
  { defaultWhatsapp := "59177676446", disableFts := false,
    ftsAvailable := true,
    admins := [("Adhex", "pw1"), ("CarlFranxx", "pw2")] }

/-- A concrete oracle for the ids, hashes and clock of a run. -/
def demoOracle : RunOracle :=
  { uid := fun u => "usr-" ++ u,
    hash := fun u p => "hash-" ++ u ++ "-" ++ p,
    now := "2025-01-01T00:00:00" }

/-- C2 counterexample: the provisioner does NOT use insert-if-absent
semantics for the whatsapp_number default setting — upsert_setting
overwrites the existing customized row with the environment default. -/
theorem provision_overwrites_custom_whatsapp :
    lookupSetting overwriteDemoDB.settings "whatsapp_number" =
      some "custom-number" ∧
    lookupSetting (provision demoEnv demoOracle overwriteDemoDB).settings
      "whatsapp_number" = some "59177676446" ∧
    "custom-number" ≠ "59177676446" := by
  refine ⟨rfl, ?_, by decide⟩
  rfl

/-- C4 counterexample state: a store whose search_engine was set to fts
by an earlier successful run. -/
def staleFtsDB : DB := ⟨[⟨"search_engine", "fts"⟩], [], [], [], [], [], []⟩

/-- C4 counterexample environment: FTS provisioning fails. -/
def noFtsEnv : Env :=
  { defaultWhatsapp := "59177676446", disableFts := false,
    ftsAvailable := false,
    admins := [("Adhex", "pw1"), ("CarlFranxx", "pw2")] }

/-- C4 counterexample: when index provisioning fails, the provisioner
does not record search_engine = like — a stale fts value from an earlier
run survives, so the downgrade is not recorded in Settings. -/
theorem fts_failure_keeps_stale_fts_mode :
    noFtsEnv.disableFts = false ∧ noFtsEnv.ftsAvailable = false ∧
    lookupSetting (provision noFtsEnv demoOracle staleFtsDB).settings
      "search_engine" = some "fts" := by
  refine ⟨rfl, rfl, ?_⟩
  rfl

/-- C4 amended: when index provisioning fails (and is not disabled), the
provisioner does not abort: the admin accounts are still ensured and the
whatsapp default is still written; and when the settings store holds no
search_engine row yet (e.g. a fresh database), the insert-if-absent
default of the base schema leaves search_engine = like, the substring
mode.  A pre-existing search_engine row, however, is left unchanged. -/
theorem fts_failure_continues_default_like (env : Env) (o : RunOracle)
    (db : DB) (hd : env.disableFts = false) (ha : env.ftsAvailable = false)
    (habs : settingKeyPresent db.settings "search_engine" = false) :
    lookupSetting (provision env o db).settings "search_engine" =
      some "like" ∧
    (∀ up ∈ env.admins,
      ((provision env o db).users.any fun r => r.username == up.1) = true) ∧
    lookupSetting (provision env o db).settings "whatsapp_number" =
      some env.defaultWhatsapp := by
  rw [provision_eq env o db]
  have hfts : ∀ s, ftsStep env s = s := by
    intro s
    unfold ftsStep
    rw [hd, ha]
    simp
  refine ⟨?_, ?_, ?_⟩
  · apply lookupSetting_eq
    · unfold settingsAfter
      apply settingKeyPresent_upsert_mono
      rw [hfts]
      exact seedSettings_present _ _ ("search_engine", "like")
        (by simp [seedSettingsList])
    · unfold settingsAfter
      apply values_upsert_other _ _ _ _ _ (by decide)
      rw [hfts]
      have h0 : ∀ r ∈ db.settings, r.key = "search_engine" →
          r.value = "like" := by
        intro r hr hk
        exfalso
        have := List.any_eq_false.mp habs r hr
        simp [hk] at this
      simp only [seedSettings, seedSettingsList, List.foldl_cons,
        List.foldl_nil]
      exact values_insert _ _ _
        (values_insert_other _ _ _ _ _ (by decide)
          (values_insert_other _ _ _ _ _ (by decide) h0))
  · exact fun up hup => ensureAdmins_present _ o _ up hup
  · apply lookupSetting_eq
    · unfold settingsAfter
      exact settingKeyPresent_upsert_self _ _ _
    · exact settingsAfter_whatsapp env db.settings

/-- A fresh, empty database. -/
def freshDB : DB := ⟨[], [], [], [], [], [], []⟩

/-- Witness for C4's amended theorem on a fresh database. -/
theorem fts_failure_continues_default_like_witness :
    lookupSetting (provision noFtsEnv demoOracle freshDB).settings
      "search_engine" = some "like" ∧
    (∀ up ∈ noFtsEnv.admins,
      ((provision noFtsEnv demoOracle freshDB).users.any
        fun r => r.username == up.1) = true) ∧
    lookupSetting (provision noFtsEnv demoOracle freshDB).settings
      "whatsapp_number" = some noFtsEnv.defaultWhatsapp :=
  fts_failure_continues_default_like noFtsEnv demoOracle freshDB rfl rfl rfl

/-! ## C7: index-backed vs substring search -/

/-- A game passing the filter is in the (sorted, capped) result set when
the catalog holds at most 60 games. -/
theorem catalog_mem_of (sys : Sys) (q engine : String) (g : GameRow)
    (hmode : lookupSetting sys.db.settings "search_engine" = some engine)
    (hg : g ∈ sys.db.games)
    (hpred : catalogPred engine (pyStrip q) none g = true)
    (hlen : sys.db.games.length ≤ 60) :
    ∃ res, catalog q none sys = some res ∧ g ∈ res := by
  refine ⟨_, by unfold catalog; rw [hmode], ?_⟩
  have hmemf : g ∈ sys.db.games.filter (catalogPred engine (pyStrip q) none) :=
    List.mem_filter.mpr ⟨hg, hpred⟩
  have hlen2 : ((sys.db.games.filter
      (catalogPred engine (pyStrip q) none)).insertionSort
        createdDesc).length ≤ 60 := by
    rw [List.length_insertionSort]
    exact le_trans (List.length_filter_le _ _) hlen
  rw [List.take_of_length_le hlen2]
  exact (List.mem_insertionSort _).mpr hmemf

/-- Demo state for C7, substring mode. -/
def catalogLikeSys : Sys :=
  ⟨⟨[⟨"search_engine", "like"⟩], [], [], [], [toggleDemoGame], [], []⟩, []⟩

/-- Demo state for C7, index mode (games_fts kept in sync by the
triggers). -/
def catalogFtsSys : Sys :=
  ⟨⟨[⟨"search_engine", "fts"⟩], [], [], [], [toggleDemoGame], [], []⟩, []⟩

/-- C7 counterexample: hadow is a literal substring of the published
title Shadow Quest, the like mode returns the game, but the fts mode
matches whole index tokens only and returns the empty result set — the
two modes do NOT return the same result set for every literal-substring
query. -/
theorem catalog_modes_differ_on_substring :
    listContains "Shadow Quest".data "hadow".data = true ∧
    toggleDemoGame.title = "Shadow Quest" ∧
    toggleDemoGame.is_published = 1 ∧
    catalog "hadow" none catalogLikeSys = some [toggleDemoGame] ∧
    catalog "hadow" none catalogFtsSys = some [] ∧
    catalog "hadow" none catalogFtsSys ≠ catalog "hadow" none catalogLikeSys := by
  refine ⟨by decide, rfl, rfl, ?_, ?_, ?_⟩
  · rfl
  · rfl
  · decide

/-- C7 amended: for a plain query that is a whole token (word) of a
published game's title, the game is present in the result sets of BOTH
the index-backed mode and the substring mode (token matches are a subset
of substring matches, so equality of the full result sets still does not
hold in general: see the counterexample). -/
theorem token_query_found_in_both_modes (sysL sysF : Sys) (q : String)
    (g : GameRow)
    (hLmode : lookupSetting sysL.db.settings "search_engine" = some "like")
    (hFmode : lookupSetting sysF.db.settings "search_engine" = some "fts")
    (hgames : sysF.db.games = sysL.db.games)
    (hg : g ∈ sysL.db.games) (hpub : g.is_published = 1)
    (hstrip : pyStrip q = q) (hne : q ≠ "")
    (htok : (q.data.map foldChar) ∈ ftsTokens g.title)
    (hlen : sysL.db.games.length ≤ 60) :
    ∃ resL resF,
      catalog q none sysL = some resL ∧ catalog q none sysF = some resF ∧
      g ∈ resL ∧ g ∈ resF := by
  have hlike : likeContains q g.title = true := likeContains_of_token htok
  have hftsm : ftsMatch q g.title g.description = true := by
    unfold ftsMatch
    have h1 : (ftsTokens g.title).any
        (fun t => t = q.data.map foldChar) = true :=
      List.any_eq_true.mpr ⟨_, htok, by simp⟩
    simp [h1]
  have hpredL : catalogPred "like" (pyStrip q) none g = true := by
    unfold catalogPred
    simp [hpub, hstrip, hne, hlike]
  have hpredF : catalogPred "fts" (pyStrip q) none g = true := by
    unfold catalogPred
    simp [hpub, hstrip, hne, hftsm]
  obtain ⟨resL, heL, hmL⟩ :=
    catalog_mem_of sysL q "like" g hLmode hg hpredL hlen
  obtain ⟨resF, heF, hmF⟩ :=
    catalog_mem_of sysF q "fts" g hFmode (by rw [hgames]; exact hg) hpredF
      (by rw [hgames]; exact hlen)
  exact ⟨resL, resF, heL, heF, hmL, hmF⟩

/-- Witness for C7's amended theorem: the token Shadow of Shadow Quest is
found by both modes. -/
theorem token_query_found_in_both_modes_witness :
    ∃ resL resF,
      catalog "Shadow" none catalogLikeSys = some resL ∧
      catalog "Shadow" none catalogFtsSys = some resF ∧
      toggleDemoGame ∈ resL ∧ toggleDemoGame ∈ resF :=
  token_query_found_in_both_modes catalogLikeSys catalogFtsSys "Shadow"
    toggleDemoGame rfl rfl rfl (by decide) (by decide) (by decide)
    (by decide) (by decide) (by decide)

end GameLinkBo
